import Mathlib

/-!
# Verification of the pipecom named-pipe transport

Shallow embedding of the pipecom transport core
(`_pipecom_posix.py`, `_pipecom_win.py`, `_exceptions.py`) and proofs of the
frozen claims about it.

Payloads and wire data are modelled as lists of byte values (`List Nat`,
each `< 256`); Python's `str.encode('utf-8') / bytes.decode('utf-8')`
bijection between text and bytes is taken outside the frame codec, which
operates on the UTF-8 bytes.
-/

namespace Pipecom

/-! ## Error model (`_exceptions.py`)

`PipeError` carries an error-code constant, and (for the claims that need it)
whether the offending received bytes were included in the raised error's
message or structured context. -/

inductive ErrCode where
  | invalidPipe
  | invalidPipeName
  | connectionFailed
  | permissionDenied
  | timeout
  | unknown
deriving DecidableEq, Repr

structure PipeErr where
  code : ErrCode
  /-- the received bytes embedded in the error's message or context
  (POSIX: the f-string `f"Invalid response …: {res}"`;
  Windows: `context={"received": data}`). -/
  received : Option (List Nat)
deriving DecidableEq, Repr

/-- `ACK = "ACK"` — UTF-8 bytes of the acknowledgement constant. -/
def ACKB : List Nat := [65, 67, 75]

/-! ## Framing codec

The POSIX backend writes `base64.b64encode(message.encode('utf-8'))`
followed by `'\n'`, and reads with `readline().strip()` followed by
`base64.b64decode`.  We embed base64 in two layers: a sextet layer
(`b64e`/`b64d`, 3 bytes ↔ 4 six-bit symbols, `64` standing for the `'='`
pad) and a character layer (`symChar`/`charSym`, symbols ↔ ASCII codes of
the base64 alphabet). -/

/-- Base64 sextet encoding of a byte list; symbol `64` is the `'='` pad. -/
def b64e : List Nat → List Nat
  | [] => []
  | [a] => [a / 4, a % 4 * 16, 64, 64]
  | [a, b] => [a / 4, a % 4 * 16 + b / 16, b % 16 * 4, 64]
  | a :: b :: c :: rest =>
      a / 4 :: (a % 4 * 16 + b / 16) :: (b % 16 * 4 + c / 64) :: c % 64 :: b64e rest

/-- Base64 sextet decoding; inverts `b64e`; `none` models a
`binascii.Error` raised by `base64.b64decode`. -/
def b64d : List Nat → Option (List Nat)
  | [] => some []
  | w :: x :: y :: z :: rest =>
      if y = 64 then
        if z = 64 ∧ rest = [] then some [w * 4 + x / 16] else none
      else if z = 64 then
        if rest = [] then some [w * 4 + x / 16, x % 16 * 16 + y / 4] else none
      else
        match b64d rest with
        | some tl => some ((w * 4 + x / 16) :: (x % 16 * 16 + y / 4) :: (y % 4 * 64 + z) :: tl)
        | none => none
  | _ => none

/-- ASCII code of the base64 alphabet character for a sextet
(`'A'..'Z'`, `'a'..'z'`, `'0'..'9'`, `'+'`, `'/'`); `64 ↦ 61` (`'='`). -/
def symChar (s : Nat) : Nat :=
  if s < 26 then 65 + s
  else if s < 52 then 71 + s
  else if s < 62 then s - 4
  else if s = 62 then 43
  else if s = 63 then 47
  else 61

/-- Inverse of `symChar` on valid base64 characters. -/
def charSym (c : Nat) : Option Nat :=
  if 65 ≤ c ∧ c ≤ 90 then some (c - 65)
  else if 97 ≤ c ∧ c ≤ 122 then some (c - 97 + 26)
  else if 48 ≤ c ∧ c ≤ 57 then some (c - 48 + 52)
  else if c = 43 then some 62
  else if c = 47 then some 63
  else if c = 61 then some 64
  else none

/-- Map every character of a candidate base64 text back to its sextet;
fails if any character is outside the alphabet. -/
def charsSyms : List Nat → Option (List Nat)
  | [] => some []
  | c :: rest =>
      match charSym c, charsSyms rest with
      | some s, some tl => some (s :: tl)
      | _, _ => none

/-- `base64.b64encode` on bytes, producing ASCII codes. -/
def b64encodeBytes (bs : List Nat) : List Nat := (b64e bs).map symChar

/-- `base64.b64decode` on ASCII codes. -/
def b64decodeChars (cs : List Nat) : Option (List Nat) :=
  (charsSyms cs).bind b64d

/-- Python `str.isspace`-relevant whitespace bytes used by `str.strip()`. -/
def isPySpaceB (c : Nat) : Bool :=
  c = 32 ∨ c = 9 ∨ c = 10 ∨ c = 13 ∨ c = 11 ∨ c = 12

/-- Python `str.strip()`: drop whitespace from both ends. -/
def pyStrip (l : List Nat) : List Nat :=
  ((l.dropWhile isPySpaceB).reverse.dropWhile isPySpaceB).reverse

/-- What `send` writes on the wire:
`fifo_out.write(base64.b64encode(message.encode('utf-8')).decode() + '\n')`. -/
def encodeFrame (bs : List Nat) : List Nat := b64encodeBytes bs ++ [10]

/-- What the reader does with a raw line:
`line.strip()` then `base64.b64decode`. -/
def decodeFrame (f : List Nat) : Option (List Nat) := b64decodeChars (pyStrip f)

/-! ### Codec round-trip lemmas -/

theorem charSym_symChar : ∀ s : Nat, s ≤ 64 → charSym (symChar s) = some s := by
  decide

theorem symChar_not_space : ∀ s : Nat, s ≤ 64 → isPySpaceB (symChar s) = false := by
  decide

theorem b64e_le (bs : List Nat) (h : ∀ b ∈ bs, b < 256) :
    ∀ s ∈ b64e bs, s ≤ 64 := by
  induction bs using b64e.induct with
  | case1 => simp [b64e]
  | case2 a =>
      have ha := h a (by simp)
      simp only [b64e, List.mem_cons, List.not_mem_nil, or_false]
      rintro s (rfl | rfl | rfl | rfl) <;> omega
  | case3 a b =>
      have ha := h a (by simp)
      have hb := h b (by simp)
      simp only [b64e, List.mem_cons, List.not_mem_nil, or_false]
      rintro s (rfl | rfl | rfl | rfl) <;> omega
  | case4 a b c rest ih =>
      have ha := h a (by simp)
      have hb := h b (by simp)
      have hc := h c (by simp)
      have ih' := ih (fun x hx => h x (by simp [hx]))
      simp only [b64e, List.mem_cons]
      rintro s (rfl | rfl | rfl | rfl | hs)
      · omega
      · omega
      · omega
      · omega
      · exact ih' s hs

theorem b64d_pad2 (w x : Nat) : b64d [w, x, 64, 64] = some [w * 4 + x / 16] := by
  rw [b64d.eq_def]
  simp

theorem b64d_pad1 (w x y : Nat) (hy : y ≠ 64) :
    b64d [w, x, y, 64] = some [w * 4 + x / 16, x % 16 * 16 + y / 4] := by
  rw [b64d.eq_def]
  simp [hy]

theorem b64d_full (w x y z : Nat) (rest : List Nat) (hy : y ≠ 64) (hz : z ≠ 64) :
    b64d (w :: x :: y :: z :: rest) =
      match b64d rest with
      | some tl => some ((w * 4 + x / 16) :: (x % 16 * 16 + y / 4) :: (y % 4 * 64 + z) :: tl)
      | none => none := by
  rw [b64d.eq_def]
  simp [hy, hz]

theorem b64d_b64e (bs : List Nat) (h : ∀ b ∈ bs, b < 256) :
    b64d (b64e bs) = some bs := by
  induction bs using b64e.induct with
  | case1 => rfl
  | case2 a =>
      show b64d [a / 4, a % 4 * 16, 64, 64] = some [a]
      rw [b64d_pad2]
      have : a / 4 * 4 + a % 4 * 16 / 16 = a := by omega
      rw [this]
  | case3 a b =>
      have hb := h b (by simp)
      have h3 : b % 16 * 4 ≠ 64 := by omega
      show b64d [a / 4, a % 4 * 16 + b / 16, b % 16 * 4, 64] = some [a, b]
      rw [b64d_pad1 _ _ _ h3]
      have e1 : a / 4 * 4 + (a % 4 * 16 + b / 16) / 16 = a := by omega
      have e2 : (a % 4 * 16 + b / 16) % 16 * 16 + b % 16 * 4 / 4 = b := by omega
      rw [e1, e2]
  | case4 a b c rest ih =>
      have hb := h b (by simp)
      have hc := h c (by simp)
      have ih' := ih (fun x hx => h x (by simp [hx]))
      have h3 : b % 16 * 4 + c / 64 ≠ 64 := by omega
      have h4 : c % 64 ≠ 64 := by omega
      show b64d (a / 4 :: (a % 4 * 16 + b / 16) :: (b % 16 * 4 + c / 64) :: c % 64 ::
        b64e rest) = some (a :: b :: c :: rest)
      rw [b64d_full _ _ _ _ _ h3 h4, ih']
      have e1 : a / 4 * 4 + (a % 4 * 16 + b / 16) / 16 = a := by omega
      have e2 : (a % 4 * 16 + b / 16) % 16 * 16 + (b % 16 * 4 + c / 64) / 4 = b := by
        omega
      have e3 : (b % 16 * 4 + c / 64) % 4 * 64 + c % 64 = c := by omega
      rw [e1, e2, e3]

theorem charsSyms_map_symChar (l : List Nat) (h : ∀ s ∈ l, s ≤ 64) :
    charsSyms (l.map symChar) = some l := by
  induction l with
  | nil => simp [charsSyms]
  | cons s tl ih =>
      have hs := h s (by simp)
      have htl := ih (fun x hx => h x (by simp [hx]))
      simp only [List.map_cons, charsSyms, charSym_symChar s hs, htl]

theorem b64decode_b64encode (bs : List Nat) (h : ∀ b ∈ bs, b < 256) :
    b64decodeChars (b64encodeBytes bs) = some bs := by
  unfold b64decodeChars b64encodeBytes
  rw [charsSyms_map_symChar _ (b64e_le bs h)]
  exact b64d_b64e bs h

theorem dropWhile_all_neg {p : Nat → Bool} :
    ∀ l : List Nat, (∀ c ∈ l, p c = false) → List.dropWhile p l = l
  | [], _ => rfl
  | a :: t, h => by
      rw [List.dropWhile_cons_of_neg (by simp [h a (by simp)])]

theorem pyStrip_no_space (l : List Nat) (h : ∀ c ∈ l, isPySpaceB c = false) :
    pyStrip (l ++ [10]) = l := by
  cases l with
  | nil => rfl
  | cons a t =>
      have ha : isPySpaceB a = false := h a (by simp)
      have hmem : ∀ c ∈ t.reverse ++ [a], isPySpaceB c = false := by
        intro c hc
        rcases List.mem_append.mp hc with hc | hc
        · exact h c (by simp [List.mem_reverse.mp hc])
        · simp only [List.mem_singleton] at hc
          exact hc ▸ ha
      unfold pyStrip
      rw [List.cons_append, List.dropWhile_cons_of_neg (by simp [ha])]
      have hrev : (a :: (t ++ [10])).reverse = 10 :: (t.reverse ++ [a]) := by simp
      rw [hrev, List.dropWhile_cons_of_pos (by decide), dropWhile_all_neg _ hmem]
      simp

theorem encodeFrame_bytes_not_space (bs : List Nat) (h : ∀ b ∈ bs, b < 256) :
    ∀ c ∈ b64encodeBytes bs, isPySpaceB c = false := by
  intro c hc
  rcases List.mem_map.mp hc with ⟨s, hs, rfl⟩
  exact symChar_not_space s (b64e_le bs h s hs)

/-- **C1.** For every payload byte string `m` (any list of bytes, including
the empty one and ones with embedded control bytes or newlines), reading
back the frame that `send` writes — strip the newline terminator, then
base64-decode — yields `m` again: the frame codec is a left-invertible
round trip. -/
theorem frame_roundtrip (bs : List Nat) (h : ∀ b ∈ bs, b < 256) :
    decodeFrame (encodeFrame bs) = some bs := by
  unfold decodeFrame encodeFrame
  rw [pyStrip_no_space _ (encodeFrame_bytes_not_space bs h)]
  exact b64decode_b64encode bs h

/-- Witness for **C1** at the concrete payload `[0, 10, 255]`
(a control byte, an embedded newline, a high byte) and at the empty payload. -/
theorem frame_roundtrip_witness :
    ((∀ b ∈ [0, 10, 255], b < 256) ∧ decodeFrame (encodeFrame [0, 10, 255]) = some [0, 10, 255])
      ∧ decodeFrame (encodeFrame []) = some [] := by
  refine ⟨⟨by decide, frame_roundtrip [0, 10, 255] (by decide)⟩,
    frame_roundtrip [] (by decide)⟩

/-! ## Channel-name validation (`_pipecom_win.py::_validate_pipe_name`)

Only the Windows backend defines (and calls) this check; the POSIX backend
has no counterpart. -/

/-- Whitespace characters as used by Python `str.strip` / `str.isspace`. -/
def isPySpaceC (c : Char) : Bool :=
  c = ' ' ∨ c = '\t' ∨ c = '\n' ∨ c = '\r' ∨ c = Char.ofNat 11 ∨ c = Char.ofNat 12

/-- `_validate_pipe_name`: `not pipe_name or not pipe_name.strip()`, then the
path-separator check, then the (redundant) `pipe_name.isspace()` check. -/
def validatePipeName (name : List Char) : Option PipeErr :=
  if name.isEmpty ∨ name.all isPySpaceC then some ⟨.invalidPipeName, none⟩
  else if name.contains '/' ∨ name.contains '\\' then some ⟨.invalidPipeName, none⟩
  else if ¬name.isEmpty ∧ name.all isPySpaceC then some ⟨.invalidPipeName, none⟩
  else none

/-! ## Windows sender (`_pipecom_win.py::send`)

`send` validates the name, opens the pipe with `CreateFile`
(overlapped iff `timeout > 0`), then runs
`while attempt < max_attempts or max_attempts == 0`.  One iteration writes
the frame and reads 3 bytes; its outcome as seen by the code is: data was
delivered, the bounded wait for the overlapped read timed out (a `PipeError`
Timeout, re-raised, only reachable when `timeout > 0`), or a
`pywintypes.error` was raised (transient).  A transient failure is re-raised
as Timeout once `time.time() - start_time >= timeout`, else retried after
`time.sleep(0.1)`.  If the loop guard fails the function falls through to
`return False`. -/

/-- Outcome of one attempt of the Windows send loop. -/
inductive WAtt where
  | gotData (d : List Nat)
  | waitTimedOut
  | transient
deriving Repr

/-- Outcome of `win32file.CreateFile`. -/
inductive CreateOut where
  | ok
  | busy
  | failed
deriving Repr, DecidableEq

/-- Environment a Windows `send` call runs against. -/
structure WinEnv where
  createFile : CreateOut
  /-- outcome of attempt `i`. -/
  att : Nat → WAtt
  /-- whether `time.time() - start_time >= timeout` held when the transient
  error of attempt `i` was caught. -/
  elapsed : Nat → Bool

/-- The attempt loop; `fuel`-indexed because with `maxAttempts = 0` and
transient outcomes the Python loop never exits (`none` = still looping). -/
def winLoop (env : WinEnv) (timeoutPos : Bool) (maxAttempts : Nat) :
    Nat → Nat → Option (Except PipeErr Bool)
  | 0, _ => none
  | fuel + 1, attempt =>
      if attempt < maxAttempts ∨ maxAttempts = 0 then
        match env.att attempt with
        | .gotData d =>
            if d = ACKB then some (.ok true)
            else some (.error ⟨.unknown, some d⟩)
        | .waitTimedOut => some (.error ⟨.timeout, none⟩)
        | .transient =>
            if timeoutPos ∧ env.elapsed attempt then some (.error ⟨.timeout, none⟩)
            else winLoop env timeoutPos maxAttempts fuel (attempt + 1)
      else some (.ok false)

/-- `_pipecom_win.py::send`. -/
def winSend (env : WinEnv) (name : List Char) (timeout maxAttempts fuel : Nat) :
    Option (Except PipeErr Bool) :=
  match validatePipeName name with
  | some e => some (.error e)
  | none =>
      match env.createFile with
      | .busy => some (.error ⟨.permissionDenied, none⟩)
      | .failed => some (.error ⟨.connectionFailed, none⟩)
      | .ok => winLoop env (decide (0 < timeout)) maxAttempts fuel 0

/-- The validation prelude of `_pipecom_win.py::listen` (the spawned accept
loop is modelled separately below). -/
def winListen (name : List Char) : Except PipeErr Unit :=
  match validatePipeName name with
  | some e => .error e
  | none => .ok ()

/-! ## POSIX sender (`_pipecom_posix.py::send`)

No name validation; `_make_fifos` is called first (touching the
filesystem), the frame is written, and the ack FIFO is read **once** —
there is no attempt loop and `max_attempts` is never used.  The timeout is
enforced by `signal.alarm(timeout)` on the main thread (where `alarm(0)`
means no alarm at all) and by `select.select([fifo_in], [], [], timeout)`
on other threads (where a timeout of `0` is a non-blocking poll). -/

/-- Outcome of one `os.mkfifo` call. -/
inductive FifoOut where
  | created
  | already
  | permission
  | failed
deriving Repr, DecidableEq

/-- Error code `_make_fifos` raises for one `mkfifo` outcome
(`FileExistsError` is swallowed). -/
def fifoErr : FifoOut → Option ErrCode
  | .permission => some .permissionDenied
  | .failed => some .unknown
  | _ => none

/-- Environment a POSIX `send` call runs against. -/
structure PosixEnv where
  fifoReq : FifoOut
  fifoAck : FifoOut
  /-- `open(pipe_name, 'w', 1)` raises (a transient connection failure). -/
  openWriteFails : Bool
  /-- seconds until ACK data is available on the ack FIFO (`none` = never). -/
  ackDelay : Option Nat
  /-- the raw line `fifo_in.readline()` returns once data is available. -/
  line : List Nat

/-- Whether the single blocking ACK read completes: `none` = blocks forever,
`some none` = the Timeout `PipeError` is raised (alarm fired / `select` not
ready), `some (some ())` = the line is delivered. -/
def posixRecv (mainThread : Bool) (timeout : Nat) (ackDelay : Option Nat) :
    Option (Option Unit) :=
  if mainThread then
    if 0 < timeout then
      match ackDelay with
      | none => some none
      | some d => if timeout ≤ d then some none else some (some ())
    else
      match ackDelay with
      | none => none
      | some _ => some (some ())
  else
    match ackDelay with
    | none => some none
    | some d => if d ≤ timeout then some (some ()) else some none

/-- `_pipecom_posix.py::send`.  `maxAttempts` is accepted, as in the source,
but nothing reads it: the body performs exactly one attempt. -/
def posixSend (env : PosixEnv) (name : List Char) (mainThread : Bool)
    (timeout maxAttempts : Nat) : Option (Except PipeErr Bool) :=
  match fifoErr env.fifoReq with
  | some c => some (.error ⟨c, none⟩)
  | none =>
      match fifoErr env.fifoAck with
      | some c => some (.error ⟨c, none⟩)
      | none =>
          if env.openWriteFails then some (.error ⟨.unknown, none⟩)
          else
            match posixRecv mainThread timeout env.ackDelay with
            | none => none
            | some none => some (.error ⟨.timeout, none⟩)
            | some (some ()) =>
                match b64decodeChars (pyStrip env.line) with
                | none => some (.error ⟨.unknown, none⟩)
                | some r =>
                    if r = ACKB then some (.ok true)
                    else some (.error ⟨.unknown, some r⟩)

/-! ## Sender claims -/

/-- A Windows environment whose first attempt fails transiently and whose
second delivers the ACK, with the deadline never elapsed. -/
def retryEnvWin : WinEnv where
  createFile := .ok
  att := fun n => if n = 0 then .transient else .gotData ACKB
  elapsed := fun _ => false

/-- A Windows environment with only transient failures and the deadline
already elapsed. -/
def elapsedEnvWin : WinEnv where
  createFile := .ok
  att := fun _ => .transient
  elapsed := fun _ => true

/-- A POSIX environment for the same scenario as `retryEnvWin`: the single
attempt's `open` fails transiently, everything else would succeed. -/
def retryEnvPosix : PosixEnv where
  fifoReq := .created
  fifoAck := .created
  openWriteFails := true
  ackDelay := some 0
  line := encodeFrame ACKB

/-- **C2, counterexample.** The claimed retry semantics does not hold on
both backends: in the same scenario — first attempt fails transiently,
second would deliver the ACK, `maxAttempts = 3` — the Windows backend
retries and returns true, but the POSIX backend raises immediately on the
first transient failure instead of retrying. -/
theorem send_retry_not_posix :
    winSend retryEnvWin [Char.ofNat 112] 5 3 10 = some (.ok true) ∧
    posixSend retryEnvPosix [Char.ofNat 112] true 5 3 =
      some (.error ⟨.unknown, none⟩) :=
  ⟨rfl, rfl⟩

/-- **C2, amended.** On the Windows backend the attempt loop runs while
`attempt < maxAttempts` or `maxAttempts == 0`: a transient failure before
the deadline is retried at the next attempt index, a transient failure
after the deadline (with `timeout > 0`) is reported as Timeout, and when
the loop guard fails the loop exits (falling through to `return False`).
The POSIX backend has no attempt loop: `max_attempts` is ignored, and a
transient connection failure raises immediately. -/
theorem send_retry_engine :
    (∀ (env : WinEnv) (tP : Bool) (m fuel i : Nat),
        env.att i = .transient → ¬(tP = true ∧ env.elapsed i = true) →
        (i < m ∨ m = 0) →
        winLoop env tP m (fuel + 1) i = winLoop env tP m fuel (i + 1)) ∧
    (∀ (env : WinEnv) (tP : Bool) (m fuel i : Nat),
        env.att i = .transient → tP = true → env.elapsed i = true →
        (i < m ∨ m = 0) →
        winLoop env tP m (fuel + 1) i = some (.error ⟨.timeout, none⟩)) ∧
    (∀ (env : WinEnv) (tP : Bool) (m fuel i : Nat),
        ¬(i < m ∨ m = 0) →
        winLoop env tP m (fuel + 1) i = some (.ok false)) ∧
    (∀ (env : PosixEnv) (name : List Char) (mt : Bool) (t m m' : Nat),
        posixSend env name mt t m = posixSend env name mt t m') ∧
    (∀ (env : PosixEnv) (name : List Char) (mt : Bool) (t m : Nat),
        fifoErr env.fifoReq = none → fifoErr env.fifoAck = none →
        env.openWriteFails = true →
        posixSend env name mt t m = some (.error ⟨.unknown, none⟩)) := by
  refine ⟨?_, ?_, ?_, ?_, ?_⟩
  · intro env tP m fuel i hatt hnel hcond
    simp only [winLoop, if_pos hcond, hatt, if_neg hnel]
  · intro env tP m fuel i hatt htP hel hcond
    simp only [winLoop, if_pos hcond, hatt, htP, hel, and_self, if_pos]
  · intro env tP m fuel i hcond
    simp only [winLoop, if_neg hcond]
  · intro env name mt t m m'
    rfl
  · intro env name mt t m h1 h2 h3
    unfold posixSend
    rw [h1, h2, h3]
    simp

/-- Witness for **C2 amended** with everything concrete. -/
theorem send_retry_engine_witness :
    winLoop retryEnvWin false 3 5 0 = winLoop retryEnvWin false 3 4 1 ∧
    winLoop elapsedEnvWin true 3 5 0 = some (.error ⟨.timeout, none⟩) ∧
    winLoop retryEnvWin false 3 5 3 = some (.ok false) ∧
    posixSend retryEnvPosix [Char.ofNat 112] true 5 3 =
      posixSend retryEnvPosix [Char.ofNat 112] true 5 0 ∧
    posixSend retryEnvPosix [Char.ofNat 112] true 5 3 =
      some (.error ⟨.unknown, none⟩) :=
  ⟨send_retry_engine.1 retryEnvWin false 3 4 0 rfl (by simp [retryEnvWin])
      (Or.inl (by omega)),
    send_retry_engine.2.1 elapsedEnvWin true 3 4 0 rfl rfl rfl (Or.inl (by omega)),
    send_retry_engine.2.2.1 retryEnvWin false 3 4 3 (by omega),
    send_retry_engine.2.2.2.1 retryEnvPosix [Char.ofNat 112] true 5 3 0,
    send_retry_engine.2.2.2.2 retryEnvPosix [Char.ofNat 112] true 5 3 rfl rfl rfl⟩

/-- **C3.** With `timeout == 0` the POSIX backend's per-attempt ACK wait is
indefinite only on the main thread (`signal.alarm(0)` sets no alarm).  On a
spawned thread the code runs `select.select([fifo_in], [], [], 0)`, a
non-blocking poll: if the ACK is not already available (here it arrives one
second later) the attempt raises Timeout immediately, contradicting the
claim and the facade's own docstring ("If set to 0, it will wait
indefinitely").  The main-thread path with the same arrival never raises
Timeout, and blocks forever when the ACK never arrives. -/
theorem timeout_zero_thread_polls :
    posixRecv false 0 (some 1) = some none ∧
    posixRecv true 0 (some 1) = some (some ()) ∧
    posixRecv true 0 none = none :=
  ⟨rfl, rfl, rfl⟩

/-- A POSIX environment in which every OS interaction succeeds. -/
def okEnvPosix : PosixEnv where
  fifoReq := .created
  fifoAck := .created
  openWriteFails := false
  ackDelay := some 0
  line := encodeFrame ACKB

/-- A POSIX environment in which the first `mkfifo` fails with a non-ENOENT
OS error (e.g. the `FileNotFoundError` that `os.mkfifo("a/b")` raises for a
missing directory, caught by the generic `except Exception`). -/
def fifoFailEnvPosix : PosixEnv where
  fifoReq := .failed
  fifoAck := .created
  openWriteFails := false
  ackDelay := some 0
  line := encodeFrame ACKB

/-- **C6, counterexample.** For the invalid channel name `"a/b"` the POSIX
backend does not fail fast with `InvalidPipeName`: it calls `os.mkfifo`
first (the result depends on the OS environment, so the pipe resource is
touched), and when `mkfifo` fails the error surfaces as `Unknown`; with a
compliant environment the send even succeeds. -/
theorem validation_not_posix :
    posixSend fifoFailEnvPosix ['a', '/', 'b'] true 5 1 =
      some (.error ⟨.unknown, none⟩) ∧
    posixSend okEnvPosix ['a', '/', 'b'] true 5 1 = some (.ok true) :=
  ⟨rfl, rfl⟩

/-- `_make_fifos` maps `mkfifo` failures to `PermissionDenied` or `Unknown`,
never `InvalidPipeName`. -/
theorem fifoErr_not_invalid (fo : FifoOut) (c : ErrCode) (h : fifoErr fo = some c) :
    c ≠ ErrCode.invalidPipeName := by
  cases fo
  · exact Option.noConfusion h
  · exact Option.noConfusion h
  · injection h with h'
    subst h'
    decide
  · injection h with h'
    subst h'
    decide

/-- **C6, amended.** On the Windows backend, every name that is empty,
all-whitespace, or contains a path separator makes both `send` and `listen`
fail with `InvalidPipeName` independently of the OS environment (so before
any pipe resource is touched) and without retrying; the POSIX backend
performs no name validation and never raises `InvalidPipeName`. -/
theorem validation_failfast :
    (∀ name : List Char,
        (name.isEmpty = true ∨ name.all isPySpaceC = true ∨
          name.contains '/' = true ∨ name.contains '\\' = true) →
        (∀ (env : WinEnv) (t m fuel : Nat),
            winSend env name t m fuel = some (.error ⟨.invalidPipeName, none⟩)) ∧
        winListen name = .error ⟨.invalidPipeName, none⟩) ∧
    (∀ (env : PosixEnv) (name : List Char) (mt : Bool) (t m : Nat) (e : PipeErr),
        posixSend env name mt t m = some (.error e) → e.code ≠ .invalidPipeName) := by
  constructor
  · intro name h
    have hv : validatePipeName name = some ⟨.invalidPipeName, none⟩ := by
      unfold validatePipeName
      rcases h with h | h | h | h
      · rw [if_pos (Or.inl h)]
      · rw [if_pos (Or.inr h)]
      · by_cases h1 : name.isEmpty = true ∨ name.all isPySpaceC = true
        · rw [if_pos h1]
        · rw [if_neg h1, if_pos (Or.inl h)]
      · by_cases h1 : name.isEmpty = true ∨ name.all isPySpaceC = true
        · rw [if_pos h1]
        · rw [if_neg h1, if_pos (Or.inr h)]
    exact ⟨fun env t m fuel => by simp only [winSend, hv],
      by simp only [winListen, hv]⟩
  · intro env name mt t m e h
    unfold posixSend at h
    split at h
    next c heq =>
      injection h with h'
      injection h' with h''
      rw [← h'']
      exact fifoErr_not_invalid _ _ heq
    next =>
      split at h
      next c heq =>
        injection h with h'
        injection h' with h''
        rw [← h'']
        exact fifoErr_not_invalid _ _ heq
      next =>
        split at h
        · injection h with h'
          injection h' with h''
          rw [← h'']
          decide
        · split at h
          · exact Option.noConfusion h
          · injection h with h'
            injection h' with h''
            rw [← h'']
            decide
          · split at h
            · injection h with h'
              injection h' with h''
              rw [← h'']
              decide
            · split at h
              · injection h with h'
                exact Except.noConfusion h'
              · injection h with h'
                injection h' with h''
                rw [← h'']
                intro hc
                exact ErrCode.noConfusion hc

/-- Witness for **C6 amended**: the invalid name `"a/b"` on the Windows
backend, and a POSIX error that is not `InvalidPipeName`. -/
theorem validation_failfast_witness :
    (winSend retryEnvWin ['a', '/', 'b'] 5 3 10 =
        some (.error ⟨.invalidPipeName, none⟩) ∧
      winListen ['a', '/', 'b'] = .error ⟨.invalidPipeName, none⟩) ∧
    (⟨ErrCode.unknown, none⟩ : PipeErr).code ≠ ErrCode.invalidPipeName :=
  ⟨⟨(validation_failfast.1 ['a', '/', 'b'] (by decide)).1 retryEnvWin 5 3 10,
      (validation_failfast.1 ['a', '/', 'b'] (by decide)).2⟩,
    validation_failfast.2 fifoFailEnvPosix ['a', '/', 'b'] true 5 1
      ⟨ErrCode.unknown, none⟩ rfl⟩

/-- A POSIX environment whose ack line decodes to `[66]` (`"B"`), not ACK. -/
def badAckEnvPosix : PosixEnv where
  fifoReq := .created
  fifoAck := .created
  openWriteFails := false
  ackDelay := some 0
  line := encodeFrame [66]

/-- A Windows environment whose first read delivers the ACK bytes. -/
def ackEnvWin : WinEnv where
  createFile := .ok
  att := fun _ => .gotData ACKB
  elapsed := fun _ => false

/-- A Windows environment whose first read delivers `[66]`, not ACK. -/
def badAckEnvWin : WinEnv where
  createFile := .ok
  att := fun _ => .gotData [66]
  elapsed := fun _ => false

/-- **C7.** `send` returns true only when the response frame checks out
against the ACK constant, and any response decoding to a different value
raises an `Unknown` error that carries the received bytes, on both
backends.  (On POSIX the response line is stripped and base64-decoded
before the comparison and the bytes land in the error message's f-string;
on Windows the 3 raw bytes are compared to the UTF-8 `ACK` constant
directly and land in the error's `context["received"]`.) -/
theorem ack_verified_only :
    (∀ (env : PosixEnv) (name : List Char) (mt : Bool) (t m : Nat) (r : List Nat),
        fifoErr env.fifoReq = none → fifoErr env.fifoAck = none →
        env.openWriteFails = false →
        posixRecv mt t env.ackDelay = some (some ()) →
        decodeFrame env.line = some r →
        (r = ACKB → posixSend env name mt t m = some (.ok true)) ∧
        (r ≠ ACKB → posixSend env name mt t m = some (.error ⟨.unknown, some r⟩))) ∧
    (∀ (env : PosixEnv) (name : List Char) (mt : Bool) (t m : Nat),
        posixSend env name mt t m = some (.ok true) →
        decodeFrame env.line = some ACKB) ∧
    (∀ (env : WinEnv) (tP : Bool) (m fuel i : Nat) (d : List Nat),
        env.att i = .gotData d → (i < m ∨ m = 0) →
        (d = ACKB → winLoop env tP m (fuel + 1) i = some (.ok true)) ∧
        (d ≠ ACKB →
          winLoop env tP m (fuel + 1) i = some (.error ⟨.unknown, some d⟩))) ∧
    (∀ (env : WinEnv) (tP : Bool) (m fuel i : Nat),
        winLoop env tP m fuel i = some (.ok true) →
        ∃ j, env.att j = .gotData ACKB) := by
  refine ⟨?_, ?_, ?_, ?_⟩
  · intro env name mt t m r h1 h2 h3 h4 h5
    unfold decodeFrame at h5
    have base : posixSend env name mt t m =
        if r = ACKB then some (.ok true) else some (.error ⟨.unknown, some r⟩) := by
      unfold posixSend
      rw [h1, h2, h3, h4, h5]
      rfl
    refine ⟨fun hr => ?_, fun hr => ?_⟩
    · rw [base, if_pos hr]
    · rw [base, if_neg hr]
  · intro env name mt t m h
    unfold posixSend at h
    split at h
    next c heq => exact absurd h (by simp)
    next =>
      split at h
      next c heq => exact absurd h (by simp)
      next =>
        split at h
        · exact absurd h (by simp)
        · split at h
          · exact Option.noConfusion h
          · exact absurd h (by simp)
          · split at h
            next heq => exact absurd h (by simp)
            next r heq =>
              split at h
              next hr =>
                subst hr
                exact heq
              next hr => exact absurd h (by simp)
  · intro env tP m fuel i d hd hcond
    refine ⟨fun hAck => ?_, fun hAck => ?_⟩
    · simp only [winLoop, if_pos hcond, hd, if_pos hAck]
    · simp only [winLoop, if_pos hcond, hd, if_neg hAck]
  · intro env tP m fuel
    induction fuel with
    | zero =>
        intro i h
        exact Option.noConfusion h
    | succ n ih =>
        intro i h
        simp only [winLoop] at h
        by_cases hc : i < m ∨ m = 0
        · rw [if_pos hc] at h
          cases hatt : env.att i with
          | gotData d =>
              simp only [hatt] at h
              by_cases hAck : d = ACKB
              · exact ⟨i, hAck ▸ hatt⟩
              · rw [if_neg hAck] at h
                exact absurd h (by simp)
          | waitTimedOut =>
              simp only [hatt] at h
              exact absurd h (by simp)
          | transient =>
              simp only [hatt] at h
              by_cases he : tP = true ∧ env.elapsed i = true
              · rw [if_pos he] at h
                exact absurd h (by simp)
              · rw [if_neg he] at h
                exact ih (i + 1) h
        · rw [if_neg hc] at h
          exact absurd h (by simp)

/-- Witness for **C7** at concrete environments: an ACK response returns
true, a `"B"` response raises Unknown carrying `[66]`, on both backends. -/
theorem ack_verified_only_witness :
    posixSend okEnvPosix [Char.ofNat 112] true 5 0 = some (.ok true) ∧
    posixSend badAckEnvPosix [Char.ofNat 112] true 5 0 =
      some (.error ⟨.unknown, some [66]⟩) ∧
    winLoop ackEnvWin false 0 1 0 = some (.ok true) ∧
    winLoop badAckEnvWin false 0 1 0 = some (.error ⟨.unknown, some [66]⟩) ∧
    (∃ j, ackEnvWin.att j = .gotData ACKB) :=
  ⟨(ack_verified_only.1 okEnvPosix [Char.ofNat 112] true 5 0 ACKB
      rfl rfl rfl rfl rfl).1 rfl,
    (ack_verified_only.1 badAckEnvPosix [Char.ofNat 112] true 5 0 [66]
      rfl rfl rfl rfl rfl).2 (by decide),
    (ack_verified_only.2.2.1 ackEnvWin false 0 0 0 ACKB rfl (Or.inr rfl)).1 rfl,
    (ack_verified_only.2.2.1 badAckEnvWin false 0 0 0 [66] rfl (Or.inr rfl)).2
      (by decide),
    ack_verified_only.2.2.2 ackEnvWin false 0 1 0 rfl⟩

/-! ## Listener connection handling
(`_pipecom_posix.py::_handler.handle_connection`,
`_pipecom_win.py::_handler.handle_connection`)

A connection handler's observable effects: whether the registered callback
ran, the acknowledgement bytes written to the peer (if any), whether it
cleared the accept loop's `keep_alive` flag, the response-channel `send` it
performed (channel, timeout, max_attempts), whether it printed the
forwarding-failure warning, and whether it raised a `PipeError`. -/

structure ConnEffects where
  handlerInvoked : Bool
  ackBytes : Option (List Nat)
  clearsFlag : Bool
  forwarded : Option (List Char × Nat × Nat)
  warned : Bool
  raised : Bool
deriving DecidableEq, Repr

/-- POSIX `handle_connection` on the raw line read from the FIFO
(`handlerOk` = the callback returns normally, `forwardOk` = the
response-channel send succeeds). -/
def posixHandleConnection (die : List Nat) (resp : Option (List Char))
    (line : List Nat) (handlerOk forwardOk : Bool) : ConnEffects :=
  if pyStrip line = [] then ⟨false, none, false, none, false, false⟩
  else
    match b64decodeChars (pyStrip line) with
    | none => ⟨false, none, false, none, false, true⟩
    | some payload =>
        if payload = die then ⟨false, some (encodeFrame ACKB), true, none, false, false⟩
        else if handlerOk = false then ⟨true, none, false, none, false, true⟩
        else
          match resp with
          | none => ⟨true, some (encodeFrame ACKB), false, none, false, false⟩
          | some ch =>
              ⟨true, some (encodeFrame ACKB), false, some (ch, 5, 3), !forwardOk, false⟩

/-- Windows `handle_connection` on the message read from the duplex pipe
(no line stripping — message mode — and the ACK written is the raw UTF-8
`ACK` constant, not a base64 frame). -/
def winHandleConnection (die : List Nat) (resp : Option (List Char))
    (msg : List Nat) (handlerOk forwardOk : Bool) : ConnEffects :=
  match b64decodeChars msg with
  | none => ⟨false, none, false, none, false, true⟩
  | some payload =>
      if payload = die then ⟨false, some ACKB, true, none, false, false⟩
      else if handlerOk = false then ⟨true, none, false, none, false, true⟩
      else
        match resp with
        | none => ⟨true, some ACKB, false, none, false, false⟩
        | some ch => ⟨true, some ACKB, false, some (ch, 5, 3), !forwardOk, false⟩

/-! ## Accept loop (`_handler` in both backends)

Per iteration the loop checks `keep_alive`, blocks for a connection, spawns
`handle_connection` for it, and — when `max_messages > 0` — increments the
per-accepted-connection counter and clears the flag at `max_messages`.
The spawned handler runs concurrently; its `keep_alive = False` write (for
a die-code payload) becomes visible to the loop after `lag` further
loop-top checks (`lag = 0`: before the next check; `lag = 1`: only after
one more connection was accepted — the loop was already blocked in its
accept call when the flag was written).  The Windows `_handler`
additionally re-checks the flag between pipe creation and the blocking
connect, which can only stop it earlier. -/

/-- One accepted connection: the raw bytes read and whether the callback
would return normally. -/
structure Conn where
  line : List Nat
  handlerOk : Bool
deriving DecidableEq, Repr

/-- Accept-loop state: the `keep_alive` flag as the loop currently sees it,
the accepted-connection count, and a pending (not yet visible) flag clear. -/
structure LoopSt where
  alive : Bool
  count : Nat
  pending : Option Nat
deriving DecidableEq, Repr

/-- Flag-visibility step performed at each loop-top check. -/
def tick (st : LoopSt) : LoopSt :=
  match st.pending with
  | some 0 => { st with alive := false, pending := none }
  | some (n + 1) => { st with pending := some n }
  | none => st

/-- Whether handling connection `c` clears the `keep_alive` flag
(i.e. its payload decodes to the die code). -/
def connClearsFlag (die : List Nat) (resp : Option (List Char)) (c : Conn) : Bool :=
  (posixHandleConnection die resp c.line c.handlerOk true).clearsFlag

/-- The accept loop over the connections that arrive, returning how many it
accepts.  An empty remainder means no further connection ever arrives (the
loop stays blocked; no more connections are accepted). -/
def acceptLoop (die : List Nat) (resp : Option (List Char)) (maxM lag : Nat) :
    List Conn → LoopSt → Nat
  | [], st => (tick st).count
  | c :: rest, st =>
      if (tick st).alive = false then (tick st).count
      else
        acceptLoop die resp maxM lag rest
          ⟨if 0 < maxM ∧ maxM ≤ (tick st).count + 1 then false else (tick st).alive,
            (tick st).count + 1,
            if connClearsFlag die resp c then some lag else (tick st).pending⟩

theorem tick_count (st : LoopSt) : (tick st).count = st.count := by
  unfold tick
  split <;> rfl

theorem tick_alive_false (st : LoopSt) (h : st.alive = false) :
    (tick st).alive = false := by
  unfold tick
  split <;> simp [h]

theorem tick_none (st : LoopSt) (h : st.pending = none) : tick st = st := by
  unfold tick
  split <;> simp_all

theorem tick_pending_zero (st : LoopSt) (h : st.pending = some 0) :
    tick st = ⟨false, st.count, none⟩ := by
  unfold tick
  split <;> simp_all

theorem tick_pending_one (st : LoopSt) (h : st.pending = some 1) :
    tick st = ⟨st.alive, st.count, some 0⟩ := by
  unfold tick
  split <;> simp_all

/-- A loop whose flag is already clear accepts nothing more. -/
theorem acceptLoop_dead (die : List Nat) (resp : Option (List Char))
    (maxM lag : Nat) :
    ∀ (conns : List Conn) (k : Nat) (p : Option Nat),
      acceptLoop die resp maxM lag conns ⟨false, k, p⟩ = k
  | [], k, p => tick_count _
  | _ :: _, k, p => by
      unfold acceptLoop
      rw [if_pos (tick_alive_false _ rfl)]
      exact tick_count _

/-- A flag clear visible at the next check stops the loop with no further
accepted connection. -/
theorem acceptLoop_pending_zero (die : List Nat) (resp : Option (List Char))
    (maxM lag : Nat) :
    ∀ (conns : List Conn) (a : Bool) (k : Nat),
      acceptLoop die resp maxM lag conns ⟨a, k, some 0⟩ = k
  | [], a, k => tick_count _
  | _ :: _, a, k => by
      unfold acceptLoop
      rw [tick_pending_zero _ rfl]
      rw [if_pos rfl]

/-- A flag clear visible one check later lets at most one further
connection be accepted (when no later connection clears the flag itself). -/
theorem acceptLoop_pending_one (die : List Nat) (resp : Option (List Char))
    (maxM lag : Nat) :
    ∀ (conns : List Conn) (a : Bool) (k : Nat),
      (∀ c ∈ conns, connClearsFlag die resp c = false) →
      acceptLoop die resp maxM lag conns ⟨a, k, some 1⟩ ≤ k + 1
  | [], a, k, _ => by
      rw [acceptLoop, tick_count]
      exact Nat.le_succ k
  | c :: rest, a, k, hnd => by
      unfold acceptLoop
      rw [tick_pending_one _ rfl]
      dsimp only
      by_cases hb : a = false
      · rw [if_pos hb]
        omega
      · rw [if_neg hb, if_neg (show ¬connClearsFlag die resp c = true by
          simp [hnd c (by simp)])]
        rw [acceptLoop_pending_zero die resp maxM lag rest _ _]

theorem acceptLoop_die_bound (die : List Nat) (resp : Option (List Char))
    (maxM lag : Nat) (hlag : lag ≤ 1) (d : Conn)
    (hd : connClearsFlag die resp d = true) :
    ∀ (pre : List Conn) (post : List Conn) (a : Bool) (k : Nat),
      (∀ c ∈ pre, connClearsFlag die resp c = false) →
      (∀ c ∈ post, connClearsFlag die resp c = false) →
      acceptLoop die resp maxM lag (pre ++ d :: post) ⟨a, k, none⟩ ≤
        k + pre.length + 2
  | [], post, a, k, _, hpost => by
      rw [List.nil_append]
      unfold acceptLoop
      rw [tick_none _ rfl]
      dsimp only
      by_cases hb : a = false
      · rw [if_pos hb]
        show k ≤ k + 0 + 2
        omega
      · rw [if_neg hb, if_pos hd]
        show acceptLoop die resp maxM lag post _ ≤ k + 0 + 2
        rcases Nat.le_one_iff_eq_zero_or_eq_one.mp hlag with rfl | rfl
        · rw [acceptLoop_pending_zero die resp maxM 0 post _ _]
          omega
        · have := acceptLoop_pending_one die resp maxM 1 post
            (if 0 < maxM ∧ maxM ≤ k + 1 then false else a) (k + 1) hpost
          omega
  | p :: pre', post, a, k, hpre, hpost => by
      rw [List.cons_append]
      unfold acceptLoop
      rw [tick_none _ rfl]
      dsimp only
      by_cases hb : a = false
      · rw [if_pos hb]
        show k ≤ k + (pre'.length + 1) + 2
        omega
      · rw [if_neg hb, if_neg (show ¬connClearsFlag die resp p = true by
          simp [hpre p (by simp)])]
        have := acceptLoop_die_bound die resp maxM lag hlag d hd pre' post
          (if 0 < maxM ∧ maxM ≤ k + 1 then false else a) (k + 1)
          (fun c hc => hpre c (by simp [hc])) hpost
        show acceptLoop die resp maxM lag (pre' ++ d :: post) _ ≤
          k + (pre'.length + 1) + 2
        omega

/-- With `maxMessages = N > 0`, at least `N` arriving connections, and no
flag-clearing payload among the first `N`, the loop accepts exactly `N`
connections and stops. -/
theorem acceptLoop_maxM (die : List Nat) (resp : Option (List Char))
    (lag maxM : Nat) (hm : 0 < maxM) :
    ∀ (conns : List Conn) (k : Nat),
      k < maxM → maxM - k ≤ conns.length →
      (∀ c ∈ conns.take (maxM - k), connClearsFlag die resp c = false) →
      acceptLoop die resp maxM lag conns ⟨true, k, none⟩ = maxM
  | [], k, hcnt, hlen, _ => by
      simp only [List.length_nil] at hlen
      omega
  | c :: rest, k, hcnt, hlen, hnd => by
      have hcmem : c ∈ (c :: rest).take (maxM - k) := by
        have hsplit : maxM - k = (maxM - k - 1) + 1 := by omega
        rw [hsplit, List.take_succ_cons]
        simp
      unfold acceptLoop
      rw [tick_none _ rfl]
      dsimp only
      rw [if_neg (show ¬(true : Bool) = false by simp),
        if_neg (show ¬connClearsFlag die resp c = true by simp [hnd c hcmem])]
      by_cases hfin : maxM ≤ k + 1
      · rw [if_pos (show 0 < maxM ∧ maxM ≤ k + 1 from ⟨hm, hfin⟩),
          acceptLoop_dead die resp maxM lag rest _ _]
        omega
      · rw [if_neg (by omega)]
        refine acceptLoop_maxM die resp lag maxM hm rest (k + 1) (by omega)
          (by simp only [List.length_cons] at hlen; omega) ?_
        intro c' hc'
        refine hnd c' ?_
        have hsplit : maxM - k = (maxM - (k + 1)) + 1 := by omega
        rw [hsplit, List.take_succ_cons]
        simp [hc']

/-! ## Listener claims -/

/-- A connection carrying the die code `[68]` (`"D"`). -/
def dieConn : Conn := ⟨encodeFrame [68], true⟩

/-- A connection carrying the ordinary payload `[65]` (`"A"`). -/
def helloConn : Conn := ⟨encodeFrame [65], true⟩

/-- A connection on which the peer disconnected without sending a frame:
`readline()` returns at most a newline and `strip()` empties it. -/
def emptyConn : Conn := ⟨[10], true⟩

/-- **C4.** A connection handler that decodes the die code writes the
acknowledgement back (POSIX: the base64-framed ACK; Windows: the raw UTF-8
`ACK` constant), does not invoke the registered handler, and clears the
accept loop's `keep_alive` flag; consequently the loop accepts at most one
more connection.  `lag ≤ 1` encodes the scheduling assumption that the
spawned die handler's flag write becomes visible to the loop no later than
the loop-top check after the next blocking accept. -/
theorem die_code_stops_listener :
    (∀ (die : List Nat) (resp : Option (List Char)) (line : List Nat) (hOk fOk : Bool),
        pyStrip line ≠ [] → b64decodeChars (pyStrip line) = some die →
        posixHandleConnection die resp line hOk fOk =
          ⟨false, some (encodeFrame ACKB), true, none, false, false⟩) ∧
    (∀ (die : List Nat) (resp : Option (List Char)) (msg : List Nat) (hOk fOk : Bool),
        b64decodeChars msg = some die →
        winHandleConnection die resp msg hOk fOk =
          ⟨false, some ACKB, true, none, false, false⟩) ∧
    (∀ (die : List Nat) (resp : Option (List Char)) (maxM lag : Nat) (d : Conn)
        (pre post : List Conn),
        lag ≤ 1 → connClearsFlag die resp d = true →
        (∀ c ∈ pre, connClearsFlag die resp c = false) →
        (∀ c ∈ post, connClearsFlag die resp c = false) →
        acceptLoop die resp maxM lag (pre ++ d :: post) ⟨true, 0, none⟩ ≤
          pre.length + 2) := by
  refine ⟨?_, ?_, ?_⟩
  · intro die resp line hOk fOk hne hdec
    unfold posixHandleConnection
    rw [if_neg hne, hdec]
    dsimp only
    rw [if_pos rfl]
  · intro die resp msg hOk fOk hdec
    unfold winHandleConnection
    rw [hdec]
    dsimp only
    rw [if_pos rfl]
  · intro die resp maxM lag d pre post hlag hd hpre hpost
    have := acceptLoop_die_bound die resp maxM lag hlag d hd pre post true 0
      hpre hpost
    omega

/-- Witness for **C4**: die code `"D"`, a die connection between two
ordinary ones, flag visibility delayed by one accept. -/
theorem die_code_stops_listener_witness :
    posixHandleConnection [68] none (encodeFrame [68]) true true =
      ⟨false, some (encodeFrame ACKB), true, none, false, false⟩ ∧
    winHandleConnection [68] none (b64encodeBytes [68]) true true =
      ⟨false, some ACKB, true, none, false, false⟩ ∧
    acceptLoop [68] none 0 1 [helloConn, dieConn, helloConn] ⟨true, 0, none⟩ ≤ 3 :=
  ⟨die_code_stops_listener.1 [68] none (encodeFrame [68]) true true
      (by decide) (by decide),
    die_code_stops_listener.2.1 [68] none (b64encodeBytes [68]) true true
      (by decide),
    by
      have := die_code_stops_listener.2.2 [68] none 0 1 dieConn
        [helloConn] [helloConn] (by decide) (by decide) (by decide) (by decide)
      simpa using this⟩

/-- **C5, counterexample.** With `maxMessages = 2` and the first accepted
connection carrying the die code, the accept loop stops after 1 accepted
connection, not 2: the stop count is not independent of payload content. -/
theorem max_messages_die_cex :
    acceptLoop [68] none 2 0 [dieConn, helloConn] ⟨true, 0, none⟩ = 1 := by
  decide

/-- **C5, amended.** With `maxMessages = N > 0` and at least `N` arriving
connections none of whose first `N` payloads decodes to the die code, the
accept loop stops after exactly `N` accepted connections — the counter
increments once per accepted connection whatever its content (empty frames
and failing handlers included); a die-code payload among them can stop the
loop earlier. -/
theorem max_messages_exact (die : List Nat) (resp : Option (List Char))
    (lag N : Nat) (conns : List Conn) (hN : 0 < N) (hlen : N ≤ conns.length)
    (hnd : ∀ c ∈ conns.take N, connClearsFlag die resp c = false) :
    acceptLoop die resp N lag conns ⟨true, 0, none⟩ = N := by
  have := acceptLoop_maxM die resp lag N hN conns 0 hN
    (by simpa using hlen) (by simpa using hnd)
  exact this

/-- Witness for **C5 amended**: `N = 2` with a normal, an empty, and a
further connection — the empty one still counts. -/
theorem max_messages_exact_witness :
    acceptLoop [68] none 2 0 [helloConn, emptyConn, helloConn] ⟨true, 0, none⟩ = 2 :=
  max_messages_exact [68] none 0 2 [helloConn, emptyConn, helloConn]
    (by omega) (by decide) (by decide)

/-- **C8.** When a response channel is configured and the handler returns
normally on a non-die payload, the listener forwards the result over the
standard send path with timeout 5 and max_attempts 3; a forwarding failure
only prints the warning — the acknowledgement is written and nothing is
raised either way, on both backends. -/
theorem response_chaining_best_effort :
    (∀ (die : List Nat) (ch : List Char) (line payload : List Nat) (fOk : Bool),
        pyStrip line ≠ [] → b64decodeChars (pyStrip line) = some payload →
        payload ≠ die →
        posixHandleConnection die (some ch) line true fOk =
          ⟨true, some (encodeFrame ACKB), false, some (ch, 5, 3), !fOk, false⟩) ∧
    (∀ (die : List Nat) (ch : List Char) (msg payload : List Nat) (fOk : Bool),
        b64decodeChars msg = some payload → payload ≠ die →
        winHandleConnection die (some ch) msg true fOk =
          ⟨true, some ACKB, false, some (ch, 5, 3), !fOk, false⟩) := by
  constructor
  · intro die ch line payload fOk hne hdec hnd
    unfold posixHandleConnection
    rw [if_neg hne, hdec]
    dsimp only
    rw [if_neg hnd, if_neg (show ¬(true : Bool) = false by simp)]
  · intro die ch msg payload fOk hdec hnd
    unfold winHandleConnection
    rw [hdec]
    dsimp only
    rw [if_neg hnd, if_neg (show ¬(true : Bool) = false by simp)]

/-- Witness for **C8**: payload `"A"`, die code `"D"`, response channel
`"o"`, forwarding failing — the warning is on and the ACK unaffected. -/
theorem response_chaining_best_effort_witness :
    posixHandleConnection [68] (some [Char.ofNat 111]) (encodeFrame [65]) true false =
      ⟨true, some (encodeFrame ACKB), false, some ([Char.ofNat 111], 5, 3),
        true, false⟩ ∧
    winHandleConnection [68] (some [Char.ofNat 111]) (b64encodeBytes [65]) true false =
      ⟨true, some ACKB, false, some ([Char.ofNat 111], 5, 3), true, false⟩ :=
  ⟨response_chaining_best_effort.1 [68] [Char.ofNat 111] (encodeFrame [65]) [65]
      false (by decide) (by decide) (by decide),
    response_chaining_best_effort.2 [68] [Char.ofNat 111] (b64encodeBytes [65]) [65]
      false (by decide) (by decide)⟩

/-- **C10.** On the POSIX backend an accepted connection whose read line
strips to empty invokes no handler, writes no acknowledgement, and does not
clear the flag — yet the accept loop counted it, so with `maxMessages = N`
a stream of `m ≥ N` empty connections alone stops the listener at exactly
`N` accepted connections. -/
theorem empty_connection_counted :
    (∀ (die : List Nat) (resp : Option (List Char)) (line : List Nat) (hOk fOk : Bool),
        pyStrip line = [] →
        posixHandleConnection die resp line hOk fOk =
          ⟨false, none, false, none, false, false⟩) ∧
    (∀ (die : List Nat) (resp : Option (List Char)) (N m lag : Nat),
        0 < N → N ≤ m →
        acceptLoop die resp N lag (List.replicate m emptyConn) ⟨true, 0, none⟩ = N) := by
  constructor
  · intro die resp line hOk fOk he
    unfold posixHandleConnection
    rw [if_pos he]
  · intro die resp N m lag hN hm
    refine max_messages_exact die resp lag N _ hN (by simpa using hm) ?_
    intro c hc
    have hc' : c = emptyConn := List.eq_of_mem_replicate (List.take_subset _ _ hc)
    subst hc'
    unfold connClearsFlag posixHandleConnection
    rw [if_pos (show pyStrip emptyConn.line = [] from rfl)]

/-- Witness for **C10**: an empty line, and two empty connections stopping
a `maxMessages = 2` listener. -/
theorem empty_connection_counted_witness :
    posixHandleConnection [68] none [10] true true =
      ⟨false, none, false, none, false, false⟩ ∧
    acceptLoop [68] none 2 0 (List.replicate 3 emptyConn) ⟨true, 0, none⟩ = 2 :=
  ⟨empty_connection_counted.1 [68] none [10] true true rfl,
    empty_connection_counted.2 [68] none 2 3 0 (by omega) (by omega)⟩

/-! ## Idle-timeout watchdog (`_kill_pipe` in both backends) -/

/-- POSIX `_kill_pipe` after the sleep phase:
`while pipe_thread.is_alive(): send(pipe_name, die_code, timeout=5,
max_attempts=5); pipe_thread.join(timeout=0.1)`.  `alive k` is whether the
listener thread is still alive at the check after `k` sends; `sendFails k`
is whether send number `k` raises (the exception then propagates out of the
watchdog thread, ending it).  Returns (terminated, sends performed), with
`(false, _)` meaning the loop is still running when `fuel` iterations have
been unrolled. -/
def posixKillRun (alive sendFails : Nat → Bool) : Nat → Nat → Bool × Nat
  | 0, n => (false, n)
  | fuel + 1, n =>
      if alive n then
        if sendFails n then (true, n + 1)
        else posixKillRun alive sendFails fuel (n + 1)
      else (true, n)

/-- Windows `_kill_pipe` after the sleep phase: at most
`max_kill_attempts = 3` iterations of `send(pipe_name, die_code, timeout=1,
max_attempts=1); pipe_thread.join(timeout=0.5)`, breaking on a send
exception, then returning regardless of the thread's state.  Returns the
number of sends performed, recursing on the attempts left. -/
def winKillRun (alive sendFails : Nat → Bool) : Nat → Nat → Nat
  | 0, sends => sends
  | left + 1, sends =>
      if alive sends then
        if sendFails sends then sends + 1
        else winKillRun alive sendFails left (sends + 1)
      else sends

theorem winKillRun_le (alive sendFails : Nat → Bool) :
    ∀ (left sends : Nat), winKillRun alive sendFails left sends ≤ sends + left
  | 0, sends => Nat.le_refl _
  | left + 1, sends => by
      unfold winKillRun
      by_cases ha : alive sends = true
      · rw [if_pos ha]
        by_cases hf : sendFails sends = true
        · rw [if_pos hf]
          omega
        · rw [if_neg hf]
          have := winKillRun_le alive sendFails left (sends + 1)
          omega
      · rw [if_neg ha]
        omega

theorem posixKillRun_alive :
    ∀ (n s : Nat), posixKillRun (fun _ => true) (fun _ => false) n s = (false, s + n)
  | 0, s => by simp [posixKillRun]
  | n + 1, s => by
      unfold posixKillRun
      rw [if_pos rfl, if_neg (show ¬false = true by simp)]
      rw [posixKillRun_alive n (s + 1)]
      congr 1
      omega

/-- **C9, counterexample.** With the listener thread never exiting and the
die-code sends succeeding, the POSIX watchdog is still looping after 100
iterations, having performed 100 sends: it neither bounds its attempts by a
small count nor terminates once they are spent. -/
theorem watchdog_unbounded_posix :
    posixKillRun (fun _ => true) (fun _ => false) 100 0 = (false, 100) :=
  posixKillRun_alive 100 0

/-- **C9, amended.** Only the Windows watchdog is bounded: it makes at most
3 die-code send attempts (short per-attempt timeouts) and then returns even
if the listener thread never exits.  The POSIX watchdog loops while the
thread is alive — with an always-alive thread and succeeding sends it has
performed `n` sends after `n` iterations for every `n`, terminating only
when the thread dies or a send raises.  (Neither backend force-kills the
thread: both `_kill_pipe` bodies only call `send` and `join`.) -/
theorem watchdog_bounded_win_only :
    (∀ (alive sendFails : Nat → Bool) (left sends : Nat),
        winKillRun alive sendFails left sends ≤ sends + left) ∧
    (∀ alive sendFails : Nat → Bool, winKillRun alive sendFails 3 0 ≤ 3) ∧
    (∀ n : Nat, posixKillRun (fun _ => true) (fun _ => false) n 0 = (false, n)) :=
  ⟨winKillRun_le,
    fun alive sendFails => winKillRun_le alive sendFails 3 0,
    fun n => by simpa using posixKillRun_alive n 0⟩

end Pipecom
